import Mathlib

/- Shallow embedding of the SEI backend's resilient paginated fetcher
(src/api/sei.py), its per-request retry wrapper, the single-page helper
functions, the Redis cache wrapper (src/api/cache.py) and process-number
normalization (src/api/normalization.py), together with proofs of the
specification's claims about them.

Modelling conventions:
- Upstream HTTP traffic is an oracle.  A page-level oracle
  `fetch : Nat → Nat → List α` gives the outcome of the (attempt, page)
  call of the single-page helper: the helper's returned item list, where
  `[]` stands for both "failed" and "genuinely empty" exactly as in the
  Python helpers (`_buscar_pagina_*` return `[]` on any error, and the
  orchestrators test `resultado == []`).
- The request-level oracle `Nat → ReqOutcome β` gives the outcome of the
  n-th low-level `http_client.get` call made by
  `_fazer_requisicao_com_retry`: an HTTP response of any status, a
  timeout, a connection error, or another request error.
- `asyncio.gather` over a batch is deterministic in the model: each page's
  outcome is a function of (attempt, page), and results are keyed by page
  number (a function `Nat → Option (List α)` models the
  `resultados_por_pagina` dict), so completion order is already abstracted
  away, as the dict abstracts it in the source.
- The discovery response (`Info.TotalItens` and the first page's items) is
  an input of each orchestrator model.
- Items are an abstract type `α` with decidable equality (instantiated at
  `Nat` in witnesses).
-/

namespace SeiApi

/-- Fixed page size used by the fetchers (`quantidade = 10` in
`listar_tarefa`, `listar_documentos` and both `_parcial` variants). -/
def pageSize : Nat := 10

/-- Number of outer retry rounds of the full-fetch orchestrators
(`max_retries = 3` in `listar_tarefa` / `listar_documentos`). -/
def maxRetries : Nat := 3

/-- Total page count computed by the orchestrators:
`math.ceil(total_itens / quantidade_por_pagina)` with page size 10. -/
def totalPaginas (totalItens : Nat) : Nat :=
  (totalItens + pageSize - 1) / pageSize

/-- Page `p` (1-based) of a ground-truth upstream item list `L`: the slice
the upstream serves for `pagina = p, quantidade = 10`.  Used to state
claims about a consistent upstream. -/
def chunk (L : List α) (p : Nat) : List α :=
  (L.drop ((p - 1) * pageSize)).take pageSize

/-- Pointwise update of the page-results map (one `resultados_por_pagina[pagina] = resultado`
assignment). -/
def updateFn (results : Nat → Option (List α)) (p : Nat) (v : List α) :
    Nat → Option (List α) :=
  fun q => if q = p then some v else results q

/-- One retry round of the full-fetch orchestrators: every pending page is
fetched once; a result of `[]` (the helpers' failure value, tested as
`resultado == []` in the source) leaves the page in the failed list, any
other result is recorded in the results map.  The source processes the
pending list in batches of 20 concurrent requests; batching only groups
the concurrent calls and does not change the recorded map or the order of
the failed list, so it is collapsed here. -/
def runRound [DecidableEq α] (fetchR : Nat → List α) (results : Nat → Option (List α)) :
    List Nat → (Nat → Option (List α)) × List Nat
  | [] => (results, [])
  | p :: ps =>
    if fetchR p = [] then
      let r := runRound fetchR results ps
      (r.1, p :: r.2)
    else
      runRound fetchR (updateFn results p (fetchR p)) ps

/-- The outer loop `for tentativa in range(max_retries)` of the full-fetch
orchestrators: runs up to `fuel` rounds starting at round index `t`,
stopping early when no page is pending.  `fetchR t p` is the outcome of
fetching page `p` during round `t`. -/
def runRounds [DecidableEq α] (fetchR : Nat → Nat → List α) :
    Nat → Nat → (Nat → Option (List α)) → List Nat → (Nat → Option (List α)) × List Nat
  | _, 0, results, pending => (results, pending)
  | t, fuel + 1, results, pending =>
    if pending = [] then (results, pending)
    else
      let r := runRound (fetchR t) results pending
      runRounds fetchR (t + 1) fuel r.1 r.2

/-- Final combination step of the full fetch: concatenate the recorded
pages in ascending page-number order (`for pagina in sorted(resultados_por_pagina.keys())`).
The orchestrators only ever record pages in `1..tp`, so the sorted key
enumeration is the filtered enumeration of `1..tp`. -/
def combinePages (results : Nat → Option (List α)) (tp : Nat) : List α :=
  ((List.range' 1 tp).filterMap results).flatten

/-- Core of the full-fetch orchestrators `listar_tarefa` (sei.py lines
642-755) and `listar_documentos` (lines 142-264), which are line-for-line
the same algorithm on different endpoints.  Inputs: the discovery
response's `TotalItens` and first-page item list, and the page oracle
`fetch attempt page` giving the helper outcome of the page's
`attempt`-th call ([] = failure).  Steps, as in the source:
`TotalItens = 0` returns `[]`; `TotalItens ≤ 10` returns the first page;
otherwise the last page is fetched upfront (its attempt 0), the middle
pages `2..tp-1` plus the last page if its upfront call failed form the
pending list, up to 3 retry rounds re-fetch pending pages (round `t` is
attempt `t` of a middle page and attempt `t+1` of the last page), and
pages still pending raise an aggregated error listing them
(`HTTPException 502` with `paginas_falhadas`); otherwise the recorded
pages are concatenated in ascending page order. -/
def fetchAllCore [DecidableEq α] (fetch : Nat → Nat → List α) (totalItens : Nat)
    (firstPage : List α) : Except (List Nat) (List α) :=
  if totalItens = 0 then .ok []
  else if totalItens ≤ pageSize then .ok firstPage
  else
    let tp := totalPaginas totalItens
    let results0 : Nat → Option (List α) := fun q => if q = 1 then some firstPage else none
    let ultima := fetch 0 tp
    let results1 := if 1 < tp ∧ ¬ ultima = [] then updateFn results0 tp ultima else results0
    let pendentes0 := List.range' 2 (tp - 2) ++ (if 1 < tp ∧ ultima = [] then [tp] else [])
    let step := runRounds (fun t p => fetch (if p = tp then t + 1 else t) p)
      0 maxRetries results1 pendentes0
    if ¬ step.2 = [] then .error step.2
    else .ok (combinePages step.1 tp)

/-- Model of `listar_tarefa` (sei.py lines 642-755): full fetch of
andamentos. -/
def listar_tarefa [DecidableEq α] (fetch : Nat → Nat → List α) (totalItens : Nat)
    (firstPage : List α) : Except (List Nat) (List α) :=
  fetchAllCore fetch totalItens firstPage

/-- Model of `listar_documentos` (sei.py lines 142-264): full fetch of
documents, the same algorithm as `listar_tarefa`. -/
def listar_documentos [DecidableEq α] (fetch : Nat → Nat → List α) (totalItens : Nat)
    (firstPage : List α) : Except (List Nat) (List α) :=
  fetchAllCore fetch totalItens firstPage

/-- Model of `listar_tarefa_parcial` (sei.py lines 465-558).  Each fetched
page is called exactly once, so the oracle is `fetch page`.  Branches, as
in the source: `TotalItens = 0` returns `([], 0, false)`;
`total_paginas ≤ 10` gathers pages `2..tp` once and extends the first
page with each result in page order (failures contribute their `[]`
silently — there is no pending/retry bookkeeping on this path), returning
`parcial = false`; otherwise pages `{2..5} ∪ {tp-4..tp}` are gathered
(for `tp ≥ 11` the two blocks are disjoint and already sorted, matching
`sorted(set(first_pages + last_pages))`), pages `≤ 5` extend `primeiros`
and the rest extend `ultimos`, returning `parcial = true`.  The
`isinstance(resultado, Exception)` guards are dead code in the model
because the single-page helpers are total (they never raise). -/
def listar_tarefa_parcial (fetch : Nat → List α) (totalItens : Nat)
    (firstPage : List α) : List α × Nat × Bool :=
  if totalItens = 0 then ([], 0, false)
  else
    let tp := totalPaginas totalItens
    if tp ≤ 10 then
      if tp = 1 then (firstPage, totalItens, false)
      else
        let resultados := (List.range' 2 (tp - 1)).map fetch
        (firstPage ++ resultados.flatten, totalItens, false)
    else
      let allPages := List.range' 2 4 ++ List.range' (tp - 4) 5
      let primeiros := firstPage ++ ((allPages.filter (fun p => p ≤ 5)).map fetch).flatten
      let ultimos := ((allPages.filter (fun p => ¬ p ≤ 5)).map fetch).flatten
      (primeiros ++ ultimos, totalItens, true)

/-- Model of `listar_documentos_parcial` (sei.py lines 561-639).  As for
`listar_tarefa_parcial`: `TotalItens = 0` → `([], 0, false)`;
`TotalItens ≤ 10` → first page with `parcial = false`;
`total_paginas ≤ 10` → first page extended with the gathered pages
`2..tp` (failures silently contribute `[]`), `parcial = false`; otherwise
first page plus the last page only, `parcial = true`. -/
def listar_documentos_parcial (fetch : Nat → List α) (totalItens : Nat)
    (firstPage : List α) : List α × Nat × Bool :=
  if totalItens = 0 then ([], 0, false)
  else if totalItens ≤ 10 then (firstPage, totalItens, false)
  else
    let tp := totalPaginas totalItens
    if tp ≤ 10 then
      (firstPage ++ ((List.range' 2 (tp - 1)).map fetch).flatten, totalItens, false)
    else
      (firstPage ++ fetch tp, totalItens, true)

/-- An HTTP response as seen by the retry wrapper: a status code and a
decoded body. -/
structure HttpResponse (β : Type) where
  status : Nat
  body : β
deriving DecidableEq

/-- Outcome of one low-level `http_client.get` call inside
`_fazer_requisicao_com_retry`: a received HTTP response (of any status),
an `httpx.TimeoutException`, an `httpx.ConnectError`, or another
`httpx.RequestError`. -/
inductive ReqOutcome (β : Type) where
  | resp (r : HttpResponse β)
  | timeout
  | connectError
  | requestError
deriving DecidableEq

/-- The exception classes `_fazer_requisicao_com_retry` can propagate to
its caller. -/
inductive TransportError where
  | timeout
  | connectError
  | requestError
deriving DecidableEq

/-- The exception a non-response outcome raises (junk value on a
response, which never raises). -/
def ReqOutcome.errOf : ReqOutcome β → TransportError
  | .resp _ => .requestError
  | .timeout => .timeout
  | .connectError => .connectError
  | .requestError => .requestError

/-- An outcome that the wrapper retries: timeout or connection failure. -/
def ReqOutcome.isTransient : ReqOutcome β → Prop
  | .timeout => True
  | .connectError => True
  | _ => False

instance (o : ReqOutcome β) : Decidable o.isTransient := by
  cases o <;> simp [ReqOutcome.isTransient] <;> infer_instance

/-- The attempt loop of `_fazer_requisicao_com_retry` (sei.py lines
21-55), starting at attempt index `t` with `remaining` attempts left.
A received response is returned immediately whatever its status (the
`status_code >= 400` branch only logs); a timeout or connect error is
re-raised on the last attempt and otherwise retried; any other
`httpx.RequestError` is re-raised immediately.  `none` models the
Python function falling off the loop and returning `None`, which happens
only when `max_tentativas = 0`. -/
def retryLoop (oracle : Nat → ReqOutcome β) :
    Nat → Nat → Option (Except TransportError (HttpResponse β))
  | _, 0 => none
  | t, remaining + 1 =>
    match oracle t with
    | .resp r => some (.ok r)
    | .timeout =>
      if remaining = 0 then some (.error .timeout) else retryLoop oracle (t + 1) remaining
    | .connectError =>
      if remaining = 0 then some (.error .connectError) else retryLoop oracle (t + 1) remaining
    | .requestError => some (.error .requestError)

/-- Model of `_fazer_requisicao_com_retry` (sei.py lines 21-55):
`for tentativa in range(max_tentativas)` over the attempt outcomes. -/
def fazer_requisicao_com_retry (oracle : Nat → ReqOutcome β) (maxTentativas : Nat) :
    Option (Except TransportError (HttpResponse β)) :=
  retryLoop oracle 0 maxTentativas

/-- Model of `_buscar_pagina_documentos` (sei.py lines 100-139): calls the
retry wrapper with `max_tentativas = 3`; a propagated exception or a
non-200 status yields `[]`; a 200 response yields its item list
(`response.json().get("Documentos", [])`, the response body in the
model).  Total by construction: every branch, including the
`except ...: return []` handlers, returns a list. -/
def buscar_pagina_documentos (oracle : Nat → ReqOutcome (List α)) : List α :=
  match fazer_requisicao_com_retry oracle 3 with
  | some (.ok r) => if r.status = 200 then r.body else []
  | some (.error _) => []
  | none => []

/-- Model of `_buscar_pagina_andamentos` (sei.py lines 427-462), identical
in structure to `_buscar_pagina_documentos` on the andamentos endpoint. -/
def buscar_pagina_andamentos (oracle : Nat → ReqOutcome (List α)) : List α :=
  match fazer_requisicao_com_retry oracle 3 with
  | some (.ok r) => if r.status = 200 then r.body else []
  | some (.error _) => []
  | none => []

/-- The Redis backend as `RedisCache` observes it (src/api/cache.py).
`connectOk` is whether `connect()` left a usable client (`redis_client`
not `None` and reachable); `read`/`write` are the raw `GET`/`SETEX`
operations, `.error ()` standing for a raised exception; `parse` and
`serialize` are `orjson.loads` / `orjson.dumps`, which can also raise. -/
structure RedisCache (V : Type) where
  connectOk : Bool
  read : String → Except Unit (Option String)
  write : String → String → Nat → Except Unit Unit
  parse : String → Except Unit V
  serialize : V → Except Unit String

/-- Model of `RedisCache.get` (cache.py lines 64-89): no client → `None`;
a raised `GET` → `None` (caught); a missing key or a falsy (empty) value →
`None`; a failed `orjson.loads` → `None` (caught by the same handler);
otherwise the parsed value. -/
def RedisCache.get (b : RedisCache V) (key : String) : Option V :=
  if ¬ b.connectOk then none
  else
    match b.read key with
    | .error _ => none
    | .ok none => none
    | .ok (some s) =>
      if s = "" then none
      else
        match b.parse s with
        | .error _ => none
        | .ok v => some v

/-- Model of `RedisCache.set` (cache.py lines 91-116): no client →
`False`; a raised `orjson.dumps` or `SETEX` → `False` (caught); otherwise
`True`. -/
def RedisCache.set (b : RedisCache V) (key : String) (value : V) (ttl : Nat) : Bool :=
  if ¬ b.connectOk then false
  else
    match b.serialize value with
    | .error _ => false
    | .ok s =>
      match b.write key s ttl with
      | .error _ => false
      | .ok _ => true

/-- Model of `normalizar_numero_processo` (normalization.py lines 10-12):
`re.sub(r'\D', '', numero)` keeps exactly the decimal-digit characters.
Strings are modelled as character lists. -/
def normalizar_numero_processo (numero : List Char) : List Char :=
  numero.filter Char.isDigit

/-- Model of `formatar_numero_processo` (normalization.py lines 15-24):
strip non-digits; if not exactly 17 digits remain, return the input
unchanged; otherwise rebuild as `limpo[:5] . limpo[5:11] / limpo[11:15] - limpo[15:17]`. -/
def formatar_numero_processo (numero : List Char) : List Char :=
  let limpo := numero.filter Char.isDigit
  if limpo.length ≠ 17 then numero
  else
    limpo.take 5 ++ ['.'] ++ (limpo.drop 5).take 6 ++ ['/']
      ++ (limpo.drop 11).take 4 ++ ['-'] ++ (limpo.drop 15).take 2

/-! Helper lemmas about the loop structure of the orchestrators. -/

theorem mem_range'_iff {m s n : Nat} : m ∈ List.range' s n ↔ s ≤ m ∧ m < s + n := by
  rw [List.mem_range']
  constructor
  · rintro ⟨i, hi, rfl⟩; omega
  · intro h; exact ⟨m - s, by omega, by omega⟩

theorem runRound_failed [DecidableEq α] (f : Nat → List α) (r : Nat → Option (List α))
    (ps : List Nat) :
    (runRound f r ps).2 = ps.filter (fun p => decide (f p = [])) := by
  induction ps generalizing r with
  | nil => simp [runRound]
  | cons p ps ih =>
    by_cases h : f p = [] <;> simp [runRound, h, ih]

theorem runRound_results [DecidableEq α] (f : Nat → List α) (r : Nat → Option (List α))
    (ps : List Nat) (q : Nat) :
    (runRound f r ps).1 q = if q ∈ ps ∧ ¬ f q = [] then some (f q) else r q := by
  induction ps generalizing r with
  | nil => simp [runRound]
  | cons p ps ih =>
    by_cases hp : f p = []
    · rw [runRound, if_pos hp]
      show (runRound f r ps).1 q = _
      rw [ih]
      by_cases hfq : f q = []
      · simp [hfq]
      · have hqp : ¬ q = p := by rintro rfl; exact hfq hp
        by_cases hq : q ∈ ps
        · simp [hq, hfq]
        · simp [hq, hfq, hqp]
    · rw [runRound, if_neg hp]
      rw [ih]
      by_cases hfq : f q = []
      · have hqp : ¬ q = p := by rintro rfl; exact hp hfq
        simp [hfq, updateFn, if_neg hqp]
      · by_cases hq : q ∈ ps
        · simp [hq, hfq]
        · by_cases hqp : q = p
          · subst hqp; simp [hq, hfq, updateFn]
          · simp [hq, hfq, hqp, updateFn]

theorem runRounds_nil [DecidableEq α] (f : Nat → Nat → List α) (t n : Nat)
    (r : Nat → Option (List α)) : runRounds f t n r [] = (r, []) := by
  cases n <;> simp [runRounds]

theorem runRounds_failed [DecidableEq α] (f : Nat → Nat → List α) (n t : Nat)
    (r : Nat → Option (List α)) (ps : List Nat) :
    (runRounds f t n r ps).2
      = ps.filter (fun p => decide (∀ u, u < n → f (t + u) p = [])) := by
  induction n generalizing t r ps with
  | zero =>
    simp only [runRounds]
    symm
    rw [List.filter_eq_self]
    intro a _
    simp
  | succ n ih =>
    by_cases hps : ps = []
    · subst hps; simp [runRounds]
    · rw [runRounds]
      simp only [if_neg hps]
      rw [ih, runRound_failed, List.filter_filter]
      apply List.filter_congr
      intro a _
      rw [← Bool.decide_and, decide_eq_decide]
      constructor
      · rintro ⟨h1, h2⟩ u hu
        cases u with
        | zero => simpa using h2
        | succ v =>
          have hv := h1 v (by omega)
          rwa [show t + 1 + v = t + (v + 1) by omega] at hv
      · intro h
        refine ⟨fun v hv => ?_, ?_⟩
        · have hv1 := h (v + 1) (by omega)
          rwa [show t + (v + 1) = t + 1 + v by omega] at hv1
        · simpa using h 0 (by omega)

theorem runRounds_all_ok_results [DecidableEq α] (f : Nat → Nat → List α) (t n : Nat)
    (r : Nat → Option (List α)) (ps : List Nat)
    (h : ∀ p ∈ ps, ¬ f t p = []) (q : Nat) :
    (runRounds f t (n + 1) r ps).1 q = if q ∈ ps then some (f t q) else r q := by
  by_cases hps : ps = []
  · subst hps; simp [runRounds]
  · rw [runRounds]
    simp only [if_neg hps]
    have h2 : (runRound (f t) r ps).2 = [] := by
      rw [runRound_failed, List.filter_eq_nil_iff]
      intro a ha
      simp [h a ha]
    rw [h2, runRounds_nil]
    show (runRound (f t) r ps).1 q = _
    rw [runRound_results]
    by_cases hq : q ∈ ps
    · simp [hq, h q hq]
    · simp [hq]

theorem runRounds_all_ok_failed [DecidableEq α] (f : Nat → Nat → List α) (t n : Nat)
    (r : Nat → Option (List α)) (ps : List Nat)
    (h : ∀ p ∈ ps, ¬ f t p = []) :
    (runRounds f t (n + 1) r ps).2 = [] := by
  rw [runRounds_failed, List.filter_eq_nil_iff]
  intro a ha
  simp only [decide_eq_true_eq, not_forall]
  exact ⟨0, by omega, by simpa using h a ha⟩

/-! Helper lemmas about a consistent upstream: for an item list `L`, page
`p` serves `chunk L p`, and the pages reassemble to `L`. -/

theorem take_add_eq_append (l : List α) (m n : Nat) :
    l.take (m + n) = l.take m ++ (l.drop m).take n := by
  rw [List.take_drop]
  have hm : l.take m = (l.take (m + n)).take m := by
    rw [List.take_take, Nat.min_eq_left (by omega)]
  rw [hm, List.take_append_drop]

theorem chunk_flatten (L : List α) (k : Nat) :
    ((List.range' 1 k).map (chunk L)).flatten = L.take (k * pageSize) := by
  induction k with
  | zero => simp
  | succ k ih =>
    rw [List.range'_1_concat, List.map_append, List.flatten_append, ih]
    show _ = L.take ((k + 1) * pageSize)
    rw [show (k + 1) * pageSize = k * pageSize + pageSize by ring,
      take_add_eq_append L (k * pageSize) pageSize]
    simp only [List.map_cons, List.map_nil, List.flatten_cons, List.flatten_nil,
      List.append_nil, chunk]
    rw [show 1 + k - 1 = k from by omega]

theorem length_le_totalPaginas_mul (n : Nat) : n ≤ totalPaginas n * pageSize := by
  have hd := Nat.div_add_mod (n + 9) 10
  have hm : (n + 9) % 10 < 10 := Nat.mod_lt _ (by norm_num)
  simp only [totalPaginas, pageSize]
  omega

theorem chunk_flatten_totalPaginas (L : List α) :
    ((List.range' 1 (totalPaginas L.length)).map (chunk L)).flatten = L := by
  rw [chunk_flatten]
  exact List.take_of_length_le (length_le_totalPaginas_mul L.length)

theorem chunk_ne_nil (L : List α) (p : Nat) (h1 : 1 ≤ p)
    (h2 : p ≤ totalPaginas L.length) : ¬ chunk L p = [] := by
  have hlt : (p - 1) * pageSize < L.length := by
    have hd := Nat.div_add_mod (L.length + 9) 10
    have hm : (L.length + 9) % 10 < 10 := Nat.mod_lt _ (by norm_num)
    simp only [totalPaginas, pageSize] at h2 ⊢
    omega
  intro hnil
  have := congrArg List.length hnil
  simp only [chunk, List.length_take, List.length_drop, List.length_nil] at this
  simp only [pageSize] at this hlt
  omega

theorem filterMap_eq_map_of_forall (l : List Nat) (f : Nat → Option (List α))
    (g : Nat → List α) (h : ∀ a ∈ l, f a = some (g a)) :
    l.filterMap f = l.map g := by
  induction l with
  | nil => simp
  | cons a l ih =>
    rw [List.filterMap_cons, h a (by simp), List.map_cons,
      ih (fun b hb => h b (by simp [hb]))]

theorem two_le_totalPaginas {n : Nat} (hn : 10 < n) : 2 ≤ totalPaginas n := by
  simp only [totalPaginas, pageSize]
  have hd := Nat.div_add_mod (n + 9) 10
  have hm : (n + 9) % 10 < 10 := Nat.mod_lt _ (by norm_num)
  omega

/-- Happy path of the full fetch: with a consistent upstream whose first
attempt at every page succeeds, the orchestrator returns the whole item
list. -/
theorem fetchAllCore_all_ok [DecidableEq α] (fetch : Nat → Nat → List α) (L : List α)
    (hn : 10 < L.length)
    (hfetch : ∀ p, 2 ≤ p → p ≤ totalPaginas L.length → fetch 0 p = chunk L p) :
    fetchAllCore fetch L.length (chunk L 1) = .ok L := by
  have h0 : ¬ L.length = 0 := by omega
  have h10 : ¬ L.length ≤ pageSize := by simp only [pageSize]; omega
  have htp2 : 2 ≤ totalPaginas L.length := two_le_totalPaginas hn
  have hlast : fetch 0 (totalPaginas L.length) = chunk L (totalPaginas L.length) :=
    hfetch _ (by omega) (le_refl _)
  have hlast_ne : ¬ fetch 0 (totalPaginas L.length) = [] := by
    rw [hlast]; exact chunk_ne_nil L _ (by omega) (le_refl _)
  simp only [fetchAllCore, if_neg h0, if_neg h10]
  rw [if_pos (⟨by omega, hlast_ne⟩ :
    1 < totalPaginas L.length ∧ ¬ fetch 0 (totalPaginas L.length) = [])]
  rw [if_neg (fun h => hlast_ne h.2 :
    ¬ (1 < totalPaginas L.length ∧ fetch 0 (totalPaginas L.length) = []))]
  rw [List.append_nil]
  have hmem : ∀ q, q ∈ List.range' 2 (totalPaginas L.length - 2) ↔
      2 ≤ q ∧ q < totalPaginas L.length := by
    intro q
    rw [mem_range'_iff]
    omega
  have h_allok : ∀ p ∈ List.range' 2 (totalPaginas L.length - 2),
      ¬ (fun t p => fetch (if p = totalPaginas L.length then t + 1 else t) p) 0 p = [] := by
    intro p hp
    rw [hmem p] at hp
    have hne : ¬ p = totalPaginas L.length := by omega
    show ¬ fetch (if p = totalPaginas L.length then 0 + 1 else 0) p = []
    rw [if_neg hne, hfetch p (by omega) (by omega)]
    exact chunk_ne_nil L p (by omega) (by omega)
  rw [show maxRetries = 2 + 1 from rfl]
  rw [runRounds_all_ok_failed _ 0 2 _ _ h_allok]
  rw [if_neg (by simp)]
  congr 1
  rw [combinePages]
  rw [filterMap_eq_map_of_forall _ _ (chunk L) ?_]
  · exact chunk_flatten_totalPaginas L
  intro q hq
  rw [mem_range'_iff] at hq
  rw [runRounds_all_ok_results _ 0 2 _ _ h_allok q]
  by_cases hqP : q ∈ List.range' 2 (totalPaginas L.length - 2)
  · rw [if_pos hqP]
    rw [hmem q] at hqP
    have hne : ¬ q = totalPaginas L.length := by omega
    show some (fetch (if q = totalPaginas L.length then 0 + 1 else 0) q) = _
    rw [if_neg hne, hfetch q (by omega) (by omega)]
  · rw [if_neg hqP]
    rw [hmem q] at hqP
    by_cases hq_tp : q = totalPaginas L.length
    · subst hq_tp
      simp [updateFn, hlast]
    · have hq1 : q = 1 := by omega
      subst hq1
      simp [updateFn, hq_tp]

/-- Error path of the full fetch: an aggregated error is nonempty and
lists only pages in range whose every performed attempt (the upfront call
for the last page, plus one call per retry round) returned the failure
value `[]`. -/
theorem fetchAllCore_error_spec [DecidableEq α] (fetch : Nat → Nat → List α) (n : Nat)
    (fp : List α) (ps : List Nat) (h : fetchAllCore fetch n fp = .error ps) :
    ¬ ps = [] ∧ ∀ p ∈ ps, 2 ≤ p ∧ p ≤ totalPaginas n ∧
      (p = totalPaginas n → ∀ a, a ≤ 3 → fetch a p = []) ∧
      (¬ p = totalPaginas n → ∀ a, a ≤ 2 → fetch a p = []) := by
  by_cases h0 : n = 0
  · simp [fetchAllCore, h0] at h
  by_cases h10 : n ≤ pageSize
  · simp [fetchAllCore, if_neg h0, if_pos h10] at h
  have hn : 10 < n := by simp only [pageSize] at h10; omega
  have htp2 : 2 ≤ totalPaginas n := two_le_totalPaginas hn
  simp only [fetchAllCore, if_neg h0, if_neg h10,
    show maxRetries = 3 from rfl] at h
  by_cases hult : fetch 0 (totalPaginas n) = []
  · rw [if_neg (fun hc => hc.2 hult :
        ¬ (1 < totalPaginas n ∧ ¬ fetch 0 (totalPaginas n) = [])),
      if_pos (⟨by omega, hult⟩ : 1 < totalPaginas n ∧ fetch 0 (totalPaginas n) = []),
      runRounds_failed] at h
    split at h
    next hnil =>
      obtain rfl := Except.error.inj h
      refine ⟨hnil, ?_⟩
      intro p hp
      rw [List.mem_filter] at hp
      obtain ⟨hpmem, hpred⟩ := hp
      rw [decide_eq_true_eq] at hpred
      rw [List.mem_append] at hpmem
      rcases hpmem with hpr | hpl
      · rw [mem_range'_iff] at hpr
        have hne : ¬ p = totalPaginas n := by omega
        refine ⟨by omega, by omega, fun hc => absurd hc hne, fun _ a ha => ?_⟩
        have ha3 := hpred a (by omega)
        rwa [if_neg hne, Nat.zero_add] at ha3
      · have hptp : p = totalPaginas n := by simpa using hpl
        subst hptp
        refine ⟨by omega, le_refl _, fun _ a ha => ?_, fun hc => absurd rfl hc⟩
        rcases Nat.eq_zero_or_pos a with rfl | hapos
        · exact hult
        · have ha3 := hpred (a - 1) (by omega)
          rw [if_pos rfl, Nat.zero_add] at ha3
          rwa [show a - 1 + 1 = a from by omega] at ha3
    next => exact absurd h (by simp)
  · rw [if_pos (⟨by omega, hult⟩ :
        1 < totalPaginas n ∧ ¬ fetch 0 (totalPaginas n) = []),
      if_neg (fun hc => hult hc.2 :
        ¬ (1 < totalPaginas n ∧ fetch 0 (totalPaginas n) = [])),
      List.append_nil, runRounds_failed] at h
    split at h
    next hnil =>
      obtain rfl := Except.error.inj h
      refine ⟨hnil, ?_⟩
      intro p hp
      rw [List.mem_filter] at hp
      obtain ⟨hpmem, hpred⟩ := hp
      rw [decide_eq_true_eq] at hpred
      rw [mem_range'_iff] at hpmem
      have hne : ¬ p = totalPaginas n := by omega
      refine ⟨by omega, by omega, fun hc => absurd hc hne, fun _ a ha => ?_⟩
      have ha3 := hpred a (by omega)
      rwa [if_neg hne, Nat.zero_add] at ha3
    next => exact absurd h (by simp)

/-- A page in range all four (last page) resp. three (middle page)
attempts of which fail forces the full fetch into the aggregated error,
and that page appears in the reported list. -/
theorem fetchAllCore_persistent_failure [DecidableEq α] (fetch : Nat → Nat → List α)
    (n : Nat) (fp : List α) (p : Nat) (hn : 10 < n) (hp2 : 2 ≤ p)
    (hptp : p ≤ totalPaginas n) (hfail : ∀ a, a ≤ 3 → fetch a p = []) :
    ∃ ps, fetchAllCore fetch n fp = .error ps ∧ p ∈ ps := by
  have h0 : ¬ n = 0 := by omega
  have h10 : ¬ n ≤ pageSize := by simp only [pageSize]; omega
  have htp2 : 2 ≤ totalPaginas n := two_le_totalPaginas hn
  simp only [fetchAllCore, if_neg h0, if_neg h10, show maxRetries = 3 from rfl]
  by_cases hult : fetch 0 (totalPaginas n) = []
  · rw [if_neg (fun hc => hc.2 hult :
        ¬ (1 < totalPaginas n ∧ ¬ fetch 0 (totalPaginas n) = [])),
      if_pos (⟨by omega, hult⟩ : 1 < totalPaginas n ∧ fetch 0 (totalPaginas n) = []),
      runRounds_failed]
    have hmem : p ∈ (List.range' 2 (totalPaginas n - 2) ++ [totalPaginas n]).filter
        (fun p => decide (∀ u, u < (3 : Nat) →
          fetch (if p = totalPaginas n then 0 + u + 1 else 0 + u) p = [])) := by
      rw [List.mem_filter]
      constructor
      · rw [List.mem_append]
        by_cases hptp' : p = totalPaginas n
        · right; simp [hptp']
        · left; rw [mem_range'_iff]; omega
      · rw [decide_eq_true_eq]
        intro u hu
        by_cases hptp' : p = totalPaginas n
        · rw [if_pos hptp']
          exact hfail (0 + u + 1) (by omega)
        · rw [if_neg hptp']
          exact hfail (0 + u) (by omega)
    rw [if_pos (by simpa using List.ne_nil_of_mem hmem)]
    exact ⟨_, rfl, hmem⟩
  · have hptpn : ¬ p = totalPaginas n := by
      intro hc; subst hc; exact hult (hfail 0 (by omega))
    rw [if_pos (⟨by omega, hult⟩ :
        1 < totalPaginas n ∧ ¬ fetch 0 (totalPaginas n) = []),
      if_neg (fun hc => hult hc.2 :
        ¬ (1 < totalPaginas n ∧ fetch 0 (totalPaginas n) = [])),
      List.append_nil, runRounds_failed]
    have hmem : p ∈ (List.range' 2 (totalPaginas n - 2)).filter
        (fun p => decide (∀ u, u < (3 : Nat) →
          fetch (if p = totalPaginas n then 0 + u + 1 else 0 + u) p = [])) := by
      rw [List.mem_filter]
      constructor
      · rw [mem_range'_iff]; omega
      · rw [decide_eq_true_eq]
        intro u hu
        rw [if_neg hptpn]
        exact hfail (0 + u) (by omega)
    rw [if_pos (by simpa using List.ne_nil_of_mem hmem)]
    exact ⟨_, rfl, hmem⟩

theorem chunk_one_of_le (L : List α) (h : L.length ≤ 10) : chunk L 1 = L := by
  simp only [chunk, pageSize, Nat.sub_self, Nat.zero_mul, List.drop_zero]
  exact List.take_of_length_le h

theorem totalPaginas_eq_one (n : Nat) (h1 : 1 ≤ n) (h10 : n ≤ 10) :
    totalPaginas n = 1 := by
  simp only [totalPaginas, pageSize]
  omega

/-- Happy path of the parcial fetch on a small resource
(`total_paginas ≤ 10`): with a consistent upstream whose single attempt at
every page succeeds, it returns the whole list with `parcial = false`. -/
theorem listar_tarefa_parcial_all_ok (L : List α) (fetch : Nat → List α)
    (htp : totalPaginas L.length ≤ 10)
    (hfetch : ∀ p, 2 ≤ p → p ≤ totalPaginas L.length → fetch p = chunk L p) :
    listar_tarefa_parcial fetch L.length (chunk L 1) = (L, L.length, false) := by
  by_cases h0 : L.length = 0
  · have hL : L = [] := List.length_eq_zero.mp h0
    rw [listar_tarefa_parcial, if_pos h0, hL]
    simp [h0, hL]
  · rw [listar_tarefa_parcial, if_neg h0, if_pos htp]
    by_cases htp1 : totalPaginas L.length = 1
    · rw [if_pos htp1]
      have hlen : L.length ≤ 10 := by
        by_contra hc
        have := two_le_totalPaginas (by omega : 10 < L.length)
        omega
      rw [chunk_one_of_le L hlen]
    · rw [if_neg htp1]
      have htp2 : 2 ≤ totalPaginas L.length := by
        have : 1 ≤ totalPaginas L.length := by
          simp only [totalPaginas, pageSize]
          omega
        omega
      have hmap : (List.range' 2 (totalPaginas L.length - 1)).map fetch
          = (List.range' 2 (totalPaginas L.length - 1)).map (chunk L) := by
        apply List.map_congr_left
        intro p hp
        rw [mem_range'_iff] at hp
        exact hfetch p (by omega) (by omega)
      rw [hmap]
      have hsplit : List.range' 1 (totalPaginas L.length)
          = 1 :: List.range' 2 (totalPaginas L.length - 1) := by
        have hs := List.range'_succ 1 (totalPaginas L.length - 1) 1
        rw [show totalPaginas L.length - 1 + 1 = totalPaginas L.length from by omega] at hs
        norm_num at hs
        exact hs
      have hL := chunk_flatten_totalPaginas L
      rw [hsplit] at hL
      simp only [List.map_cons, List.flatten_cons] at hL
      show (chunk L 1 ++
        (List.map (chunk L) (List.range' 2 (totalPaginas L.length - 1))).flatten,
        L.length, false) = (L, L.length, false)
      rw [hL]

/-- The concatenated page results of the parcial fetch on a large
resource are bounded by one page for page 1 plus nine fetched pages. -/
theorem flatten_map_length_le (l : List Nat) (f : Nat → List α)
    (h : ∀ p ∈ l, (f p).length ≤ pageSize) :
    ((l.map f).flatten).length ≤ l.length * pageSize := by
  induction l with
  | nil => simp
  | cons a l ih =>
    simp only [List.map_cons, List.flatten_cons, List.length_append, List.length_cons]
    have h1 := h a (by simp)
    have h2 := ih (fun p hp => h p (by simp [hp]))
    simp only [pageSize] at h1 h2 ⊢
    omega

/-! Helper lemmas for the retry wrapper. -/

theorem retryLoop_success (oracle : Nat → ReqOutcome β) (k : Nat) :
    ∀ t m, k < m → (∀ j, j < k → (oracle (t + j)).isTransient) →
    ∀ r, oracle (t + k) = .resp r → retryLoop oracle t m = some (.ok r) := by
  induction k with
  | zero =>
    intro t m hk htrans r hresp
    obtain ⟨m', rfl⟩ : ∃ m', m = m' + 1 := ⟨m - 1, by omega⟩
    rw [retryLoop]
    rw [show t + 0 = t from rfl] at hresp
    rw [hresp]
  | succ k ih =>
    intro t m hk htrans r hresp
    obtain ⟨m', rfl⟩ : ∃ m', m = m' + 1 := ⟨m - 1, by omega⟩
    have h0 := htrans 0 (by omega)
    rw [show t + 0 = t from rfl] at h0
    have hm' : ¬ m' = 0 := by omega
    have htrans' : ∀ j, j < k → (oracle (t + 1 + j)).isTransient := by
      intro j hj
      have hx := htrans (j + 1) (by omega)
      rwa [show t + (j + 1) = t + 1 + j from by omega] at hx
    have hresp' : oracle (t + 1 + k) = .resp r := by
      rwa [show t + 1 + k = t + (k + 1) from by omega]
    rw [retryLoop]
    cases ho : oracle t with
    | resp r' => rw [ho] at h0; exact h0.elim
    | timeout =>
      show (if m' = 0 then some (Except.error TransportError.timeout)
        else retryLoop oracle (t + 1) m') = some (Except.ok r)
      rw [if_neg hm']
      exact ih (t + 1) m' (by omega) htrans' r hresp'
    | connectError =>
      show (if m' = 0 then some (Except.error TransportError.connectError)
        else retryLoop oracle (t + 1) m') = some (Except.ok r)
      rw [if_neg hm']
      exact ih (t + 1) m' (by omega) htrans' r hresp'
    | requestError => rw [ho] at h0; exact h0.elim

theorem retryLoop_exhausted (oracle : Nat → ReqOutcome β) (m : Nat) :
    ∀ t, 1 ≤ m → (∀ j, j < m → (oracle (t + j)).isTransient) →
    retryLoop oracle t m = some (.error ((oracle (t + (m - 1))).errOf)) := by
  induction m with
  | zero => intro t hm; omega
  | succ m ih =>
    intro t _ htrans
    have h0 := htrans 0 (by omega)
    rw [show t + 0 = t from rfl] at h0
    rw [retryLoop]
    cases ho : oracle t with
    | resp r => rw [ho] at h0; exact h0.elim
    | timeout =>
      show (if m = 0 then some (Except.error TransportError.timeout)
        else retryLoop oracle (t + 1) m) = some (Except.error ((oracle (t + m)).errOf))
      by_cases hm0 : m = 0
      · subst hm0
        rw [if_pos rfl, show t + 0 = t from rfl, ho]
        rfl
      · rw [if_neg hm0]
        have htrans' : ∀ j, j < m → (oracle (t + 1 + j)).isTransient := by
          intro j hj
          have hx := htrans (j + 1) (by omega)
          rwa [show t + (j + 1) = t + 1 + j from by omega] at hx
        rw [ih (t + 1) (by omega) htrans']
        rw [show t + 1 + (m - 1) = t + m from by omega]
    | connectError =>
      show (if m = 0 then some (Except.error TransportError.connectError)
        else retryLoop oracle (t + 1) m) = some (Except.error ((oracle (t + m)).errOf))
      by_cases hm0 : m = 0
      · subst hm0
        rw [if_pos rfl, show t + 0 = t from rfl, ho]
        rfl
      · rw [if_neg hm0]
        have htrans' : ∀ j, j < m → (oracle (t + 1 + j)).isTransient := by
          intro j hj
          have hx := htrans (j + 1) (by omega)
          rwa [show t + (j + 1) = t + 1 + j from by omega] at hx
        rw [ih (t + 1) (by omega) htrans']
        rw [show t + 1 + (m - 1) = t + m from by omega]
    | requestError => rw [ho] at h0; exact h0.elim

theorem retryLoop_requestError (oracle : Nat → ReqOutcome β) (k : Nat) :
    ∀ t m, k < m → (∀ j, j < k → (oracle (t + j)).isTransient) →
    oracle (t + k) = .requestError →
    retryLoop oracle t m = some (.error .requestError) := by
  induction k with
  | zero =>
    intro t m hk htrans hreq
    obtain ⟨m', rfl⟩ : ∃ m', m = m' + 1 := ⟨m - 1, by omega⟩
    rw [retryLoop]
    rw [show t + 0 = t from rfl] at hreq
    rw [hreq]
  | succ k ih =>
    intro t m hk htrans hreq
    obtain ⟨m', rfl⟩ : ∃ m', m = m' + 1 := ⟨m - 1, by omega⟩
    have h0 := htrans 0 (by omega)
    rw [show t + 0 = t from rfl] at h0
    have hm' : ¬ m' = 0 := by omega
    have htrans' : ∀ j, j < k → (oracle (t + 1 + j)).isTransient := by
      intro j hj
      have hx := htrans (j + 1) (by omega)
      rwa [show t + (j + 1) = t + 1 + j from by omega] at hx
    have hreq' : oracle (t + 1 + k) = .requestError := by
      rwa [show t + 1 + k = t + (k + 1) from by omega]
    rw [retryLoop]
    cases ho : oracle t with
    | resp r' => rw [ho] at h0; exact h0.elim
    | timeout =>
      show (if m' = 0 then some (Except.error TransportError.timeout)
        else retryLoop oracle (t + 1) m') = some (Except.error TransportError.requestError)
      rw [if_neg hm']
      exact ih (t + 1) m' (by omega) htrans' hreq'
    | connectError =>
      show (if m' = 0 then some (Except.error TransportError.connectError)
        else retryLoop oracle (t + 1) m') = some (Except.error TransportError.requestError)
      rw [if_neg hm']
      exact ih (t + 1) m' (by omega) htrans' hreq'
    | requestError => rw [ho] at h0

/-! Claim theorems. -/

/-- C5: the per-request retry wrapper `_fazer_requisicao_com_retry`
returns any received HTTP response as-is (4xx/5xx included) without
retrying; only a timeout or connection-establishment failure triggers a
retry; if transport failures occur on fewer than `max_tentativas`
consecutive tries and a later try receives a response, that response is
returned; if all `max_tentativas` tries fail at transport level, the last
exception propagates; any other request error propagates immediately. -/
theorem fazer_requisicao_com_retry_spec (oracle : Nat → ReqOutcome β) (maxT : Nat)
    (hm : 1 ≤ maxT) :
    (∀ k, k < maxT → (∀ j, j < k → (oracle j).isTransient) →
      ∀ r, oracle k = .resp r →
        fazer_requisicao_com_retry oracle maxT = some (.ok r)) ∧
    ((∀ j, j < maxT → (oracle j).isTransient) →
      fazer_requisicao_com_retry oracle maxT
        = some (.error ((oracle (maxT - 1)).errOf))) ∧
    (∀ k, k < maxT → (∀ j, j < k → (oracle j).isTransient) →
      oracle k = .requestError →
        fazer_requisicao_com_retry oracle maxT = some (.error .requestError)) := by
  refine ⟨?_, ?_, ?_⟩
  · intro k hk htrans r hresp
    exact retryLoop_success oracle k 0 maxT hk
      (fun j hj => by simpa using htrans j hj) r (by simpa using hresp)
  · intro htrans
    have h := retryLoop_exhausted oracle maxT 0 hm
      (fun j hj => by simpa using htrans j hj)
    simpa using h
  · intro k hk htrans hreq
    exact retryLoop_requestError oracle k 0 maxT hk
      (fun j hj => by simpa using htrans j hj) (by simpa using hreq)

/-- Witness for C5: one timeout followed by an HTTP 404 response; the 404
is returned as-is by the wrapper. -/
theorem fazer_requisicao_com_retry_spec_witness :
    fazer_requisicao_com_retry
      (fun t => if t = 0 then ReqOutcome.timeout
        else ReqOutcome.resp ⟨404, [7]⟩ : Nat → ReqOutcome (List Nat)) 3
      = some (.ok ⟨404, [7]⟩) := by
  exact (fazer_requisicao_com_retry_spec
      (fun t => if t = 0 then ReqOutcome.timeout else ReqOutcome.resp ⟨404, [7]⟩) 3
      (by norm_num)).1 1 (by norm_num)
    (fun j hj => by
      have hj0 : j = 0 := by omega
      subst hj0
      trivial)
    ⟨404, [7]⟩ rfl

/-- C6: the single-page helpers `_buscar_pagina_documentos` and
`_buscar_pagina_andamentos` never raise: an exception propagated by the
retry wrapper or a non-200 response makes them return `[]`, and a 200
response makes them return the page's item list. -/
theorem buscar_pagina_two_tier (oracle : Nat → ReqOutcome (List α)) :
    (∀ e, fazer_requisicao_com_retry oracle 3 = some (.error e) →
      buscar_pagina_documentos oracle = [] ∧ buscar_pagina_andamentos oracle = []) ∧
    (∀ r, fazer_requisicao_com_retry oracle 3 = some (.ok r) → ¬ r.status = 200 →
      buscar_pagina_documentos oracle = [] ∧ buscar_pagina_andamentos oracle = []) ∧
    (∀ r, fazer_requisicao_com_retry oracle 3 = some (.ok r) → r.status = 200 →
      buscar_pagina_documentos oracle = r.body
        ∧ buscar_pagina_andamentos oracle = r.body) := by
  refine ⟨?_, ?_, ?_⟩
  · intro e h
    constructor <;> simp [buscar_pagina_documentos, buscar_pagina_andamentos, h]
  · intro r h hstat
    constructor <;>
      simp [buscar_pagina_documentos, buscar_pagina_andamentos, h, hstat]
  · intro r h hstat
    constructor <;>
      simp [buscar_pagina_documentos, buscar_pagina_andamentos, h, hstat]

/-- Witness for C6: a first-try 200 response; both helpers return its item
list. -/
theorem buscar_pagina_two_tier_witness :
    buscar_pagina_documentos (fun _ => ReqOutcome.resp ⟨200, [1, 2, 3]⟩) = [1, 2, 3]
      ∧ buscar_pagina_andamentos (fun _ => ReqOutcome.resp ⟨200, [1, 2, 3]⟩)
        = [1, 2, 3] := by
  exact (buscar_pagina_two_tier
    (fun _ => ReqOutcome.resp ⟨200, ([1, 2, 3] : List Nat)⟩)).2.2 ⟨200, [1, 2, 3]⟩ rfl rfl

/-- C9: cache unavailability is never fatal: with no usable client
`RedisCache.get` returns `None` and `RedisCache.set` returns `False`, and
a raised read, write, serialize or parse is caught and mapped to the same
miss/`False` results; no exception reaches the caller (the models are
total functions into `Option`/`Bool`). -/
theorem redis_cache_nonfatal (b : RedisCache V) (key : String) (value : V) (ttl : Nat) :
    (b.connectOk = false → b.get key = none ∧ b.set key value ttl = false) ∧
    (b.read key = .error () → b.get key = none) ∧
    (∀ s, b.read key = .ok (some s) → b.parse s = .error () → b.get key = none) ∧
    (b.serialize value = .error () → b.set key value ttl = false) ∧
    (∀ s, b.serialize value = .ok s → b.write key s ttl = .error () →
      b.set key value ttl = false) := by
  refine ⟨?_, ?_, ?_, ?_, ?_⟩
  · intro h
    constructor <;> simp [RedisCache.get, RedisCache.set, h]
  · intro h
    cases hc : b.connectOk <;> simp [RedisCache.get, h, hc]
  · intro s h hp
    cases hc : b.connectOk <;> by_cases hs : s = "" <;>
      simp [RedisCache.get, h, hp, hc, hs]
  · intro h
    cases hc : b.connectOk <;> simp [RedisCache.set, h, hc]
  · intro s h hw
    cases hc : b.connectOk <;> simp [RedisCache.set, h, hw, hc]

/-- Witness for C9: a backend with no usable client yields a miss and a
failed store. -/
theorem redis_cache_nonfatal_witness :
    RedisCache.get
      (⟨false, fun _ => .ok none, fun _ _ _ => .ok (), fun _ => .error (),
        fun _ => .ok ""⟩ : RedisCache Nat) "andamento:123" = none ∧
    RedisCache.set
      (⟨false, fun _ => .ok none, fun _ _ _ => .ok (), fun _ => .error (),
        fun _ => .ok ""⟩ : RedisCache Nat) "andamento:123" 0 86400 = false := by
  exact (redis_cache_nonfatal _ "andamento:123" 0 86400).1 rfl

/-- C10: for a string of exactly 17 digits,
`normalizar_numero_processo (formatar_numero_processo s) = s`, and
`normalizar_numero_processo` is idempotent on every string. -/
theorem normalizacao_roundtrip_idempotente :
    (∀ s : List Char, (∀ c ∈ s, c.isDigit) → s.length = 17 →
      normalizar_numero_processo (formatar_numero_processo s) = s) ∧
    (∀ s : List Char, normalizar_numero_processo (normalizar_numero_processo s)
      = normalizar_numero_processo s) := by
  constructor
  · intro s hdig hlen
    have hfs : s.filter Char.isDigit = s :=
      List.filter_eq_self.mpr (fun a ha => hdig a ha)
    have htake : ∀ k j : Nat, ((s.drop k).take j).filter Char.isDigit
        = (s.drop k).take j := by
      intro k j
      apply List.filter_eq_self.mpr
      intro a ha
      exact hdig a (List.drop_subset _ _ (List.take_subset _ _ ha))
    have htake0 : (s.take 5).filter Char.isDigit = s.take 5 := by
      apply List.filter_eq_self.mpr
      intro a ha
      exact hdig a (List.take_subset _ _ ha)
    rw [formatar_numero_processo]
    simp only [hfs, hlen]
    rw [if_neg (by norm_num)]
    rw [normalizar_numero_processo]
    simp only [List.filter_append, htake, htake0,
      show (['.'] : List Char).filter Char.isDigit = [] from by decide,
      show (['/'] : List Char).filter Char.isDigit = [] from by decide,
      show (['-'] : List Char).filter Char.isDigit = [] from by decide,
      List.nil_append, List.append_nil]
    have e1 : s.take 11 = s.take 5 ++ (s.drop 5).take 6 := by
      have h := take_add_eq_append s 5 6
      norm_num at h
      exact h
    have e2 : s.take 15 = s.take 11 ++ (s.drop 11).take 4 := by
      have h := take_add_eq_append s 11 4
      norm_num at h
      exact h
    have e3 : s.take 17 = s.take 15 ++ (s.drop 15).take 2 := by
      have h := take_add_eq_append s 15 2
      norm_num at h
      exact h
    have e0 : s.take 17 = s := by rw [← hlen, List.take_length]
    rw [← e1, ← e2, ← e3, e0]
  · intro s
    simp only [normalizar_numero_processo]
    rw [List.filter_filter]
    apply List.filter_congr
    intro a _
    simp [Bool.and_self]

/-- Witness for C10: the 17-digit process number 00002012041202595
round-trips through formatting, and one concrete idempotence instance. -/
theorem normalizacao_roundtrip_idempotente_witness :
    normalizar_numero_processo (formatar_numero_processo
      ['0', '0', '0', '0', '2', '0', '1', '2', '0', '4', '1', '2', '0', '2', '5', '9', '5'])
      = ['0', '0', '0', '0', '2', '0', '1', '2', '0', '4', '1', '2', '0', '2', '5', '9', '5']
    ∧ normalizar_numero_processo (normalizar_numero_processo
        ['0', '0', '.', 'a', '7'])
      = normalizar_numero_processo ['0', '0', '.', 'a', '7'] := by
  exact ⟨normalizacao_roundtrip_idempotente.1 _ (by decide) (by decide),
    normalizacao_roundtrip_idempotente.2 _⟩

/-- C7: on a large resource (`total_paginas > 10`), `listar_tarefa_parcial`
returns `parcial = true` and at most `2 * K * page_size = 100` items
(page 1 plus nine fetched pages, each of at most `page_size` items). -/
theorem listar_tarefa_parcial_large_bounded (fetch : Nat → List α) (n : Nat)
    (fp : List α) (htp : 10 < totalPaginas n) (hfp : fp.length ≤ pageSize)
    (hfetch : ∀ p, (fetch p).length ≤ pageSize) :
    (listar_tarefa_parcial fetch n fp).2.2 = true ∧
    (listar_tarefa_parcial fetch n fp).1.length ≤ 2 * 5 * pageSize := by
  have h0 : ¬ n = 0 := by
    intro h
    subst h
    simp [totalPaginas, pageSize] at htp
  rw [listar_tarefa_parcial, if_neg h0, if_neg (by omega : ¬ totalPaginas n ≤ 10)]
  refine ⟨rfl, ?_⟩
  show ((fp ++ (((List.range' 2 4 ++ List.range' (totalPaginas n - 4) 5).filter
      (fun p => p ≤ 5)).map fetch).flatten) ++
    (((List.range' 2 4 ++ List.range' (totalPaginas n - 4) 5).filter
      (fun p => ¬ p ≤ 5)).map fetch).flatten).length ≤ 2 * 5 * pageSize
  have hfilter1 : (List.range' 2 4 ++ List.range' (totalPaginas n - 4) 5).filter
      (fun p => decide (p ≤ 5)) = List.range' 2 4 := by
    rw [List.filter_append]
    have ha : (List.range' 2 4).filter (fun p => decide (p ≤ 5)) = List.range' 2 4 := by
      apply List.filter_eq_self.mpr
      intro a ha
      rw [mem_range'_iff] at ha
      simp only [decide_eq_true_eq]
      omega
    have hb : (List.range' (totalPaginas n - 4) 5).filter
        (fun p => decide (p ≤ 5)) = [] := by
      rw [List.filter_eq_nil_iff]
      intro a ha
      rw [mem_range'_iff] at ha
      simp only [decide_eq_true_eq]
      omega
    rw [ha, hb, List.append_nil]
  have hfilter2 : (List.range' 2 4 ++ List.range' (totalPaginas n - 4) 5).filter
      (fun p => decide (¬ p ≤ 5)) = List.range' (totalPaginas n - 4) 5 := by
    rw [List.filter_append]
    have ha : (List.range' 2 4).filter (fun p => decide (¬ p ≤ 5)) = [] := by
      rw [List.filter_eq_nil_iff]
      intro a ha
      rw [mem_range'_iff] at ha
      simp only [decide_eq_true_eq]
      omega
    have hb : (List.range' (totalPaginas n - 4) 5).filter
        (fun p => decide (¬ p ≤ 5)) = List.range' (totalPaginas n - 4) 5 := by
      apply List.filter_eq_self.mpr
      intro a ha
      rw [mem_range'_iff] at ha
      simp only [decide_eq_true_eq]
      omega
    rw [ha, hb, List.nil_append]
  rw [hfilter1, hfilter2]
  have hb1 : (((List.range' 2 4).map fetch).flatten).length ≤ 4 * pageSize := by
    have h := flatten_map_length_le (List.range' 2 4) fetch (fun p _ => hfetch p)
    simpa using h
  have hb2 : (((List.range' (totalPaginas n - 4) 5).map fetch).flatten).length
      ≤ 5 * pageSize := by
    have h := flatten_map_length_le (List.range' (totalPaginas n - 4) 5) fetch
      (fun p _ => hfetch p)
    simpa using h
  simp only [List.length_append, pageSize] at hfp hb1 hb2 ⊢
  omega

/-- Witness for C7: 105 items (11 pages), every page of 10 items; the
parcial fetch is flagged partial and bounded by 100 items. -/
theorem listar_tarefa_parcial_large_bounded_witness :
    (listar_tarefa_parcial (fun _ => List.range 10) 105 (List.range 10)).2.2 = true ∧
    (listar_tarefa_parcial (fun _ => List.range 10) 105 (List.range 10)).1.length
      ≤ 2 * 5 * pageSize := by
  exact listar_tarefa_parcial_large_bounded (fun _ => List.range 10) 105 (List.range 10)
    (by norm_num [totalPaginas, pageSize]) (by simp [pageSize])
    (fun p => by simp [pageSize])

/-- C8: when the discovery call reports `TotalItens ≤ 10`, the full
fetchers return the first page directly (the empty list when
`TotalItens = 0`) and perform no further upstream requests: the result
does not depend on the page oracle at all, so the discovery call is the
only upstream call. -/
theorem full_fetch_small_single_call [DecidableEq α]
    (fetch fetch2 : Nat → Nat → List α) (n : Nat) (fp : List α) (hn : n ≤ 10) :
    listar_tarefa fetch n fp = .ok (if n = 0 then [] else fp) ∧
    listar_documentos fetch n fp = .ok (if n = 0 then [] else fp) ∧
    listar_tarefa fetch n fp = listar_tarefa fetch2 n fp ∧
    listar_documentos fetch n fp = listar_documentos fetch2 n fp := by
  by_cases h0 : n = 0
  · subst h0
    simp [listar_tarefa, listar_documentos, fetchAllCore]
  · have h10 : n ≤ pageSize := by simpa [pageSize] using hn
    simp [listar_tarefa, listar_documentos, fetchAllCore, h0, h10]

/-- Witness for C8: 5 items; the first page is returned unchanged and the
result is the same under two different page oracles. -/
theorem full_fetch_small_single_call_witness :
    listar_tarefa (fun _ _ => [99]) 5 [1, 2, 3, 4, 5] = .ok [1, 2, 3, 4, 5] ∧
    listar_tarefa (fun _ _ => [99]) 5 [1, 2, 3, 4, 5]
      = listar_tarefa (fun _ _ => [42]) 5 [1, 2, 3, 4, 5] := by
  have h := full_fetch_small_single_call (fun _ _ => ([99] : List Nat))
    (fun _ _ => [42]) 5 [1, 2, 3, 4, 5] (by norm_num)
  exact ⟨by simpa using h.1, h.2.2.1⟩

/-- C1: on a full fetch where the discovery reports `TotalItens > 10` and
every page request succeeds (serves its slice of the upstream list `L`),
both `listar_tarefa` and `listar_documentos` return exactly the
concatenation of the pages in ascending page-number order, whose length is
`TotalItens`.  Completion order of the concurrent page fetches is
abstracted by the page-keyed results map, which the orchestrators read in
sorted page order. -/
theorem full_fetch_ordered_complete [DecidableEq α] (L : List α)
    (fetch : Nat → Nat → List α) (hn : 10 < L.length)
    (hfetch : ∀ p, 2 ≤ p → p ≤ totalPaginas L.length → fetch 0 p = chunk L p) :
    listar_tarefa fetch L.length (chunk L 1)
      = .ok (((List.range' 1 (totalPaginas L.length)).map (chunk L)).flatten) ∧
    listar_documentos fetch L.length (chunk L 1)
      = .ok (((List.range' 1 (totalPaginas L.length)).map (chunk L)).flatten) ∧
    (((List.range' 1 (totalPaginas L.length)).map (chunk L)).flatten).length
      = L.length := by
  have h := fetchAllCore_all_ok fetch L hn hfetch
  have hfl := chunk_flatten_totalPaginas L
  rw [listar_tarefa, listar_documentos, hfl]
  exact ⟨h, h, rfl⟩

/-- Witness for C1: 12 items served consistently in two pages; the fetch
returns all 12 in order. -/
theorem full_fetch_ordered_complete_witness :
    listar_tarefa (fun _ p => chunk (List.range 12) p) (List.range 12).length
      (chunk (List.range 12) 1)
      = .ok (((List.range' 1 (totalPaginas (List.range 12).length)).map
          (chunk (List.range 12))).flatten) := by
  exact (full_fetch_ordered_complete (List.range 12)
    (fun _ p => chunk (List.range 12) p) (by simp) (fun p _ _ => rfl)).1

/-- C3: on a full fetch with `TotalItens > 10`, a page that still has no
successful result after the upfront call and the 3 retry rounds forces the
whole call into the aggregated error, which lists exactly such pages
(nonempty, each within `2..total_paginas`, each with every performed
attempt failed); consequently an `ok` result is only returned when every
page in range had some successful attempt — never a list with pages
silently missing. -/
theorem full_fetch_fails_aggregated [DecidableEq α] (fetch : Nat → Nat → List α)
    (n : Nat) (fp : List α) (hn : 10 < n) :
    (∀ ps, listar_tarefa fetch n fp = .error ps → ¬ ps = [] ∧ ∀ p ∈ ps,
      2 ≤ p ∧ p ≤ totalPaginas n ∧
      (p = totalPaginas n → ∀ a, a ≤ 3 → fetch a p = []) ∧
      (¬ p = totalPaginas n → ∀ a, a ≤ 2 → fetch a p = [])) ∧
    (∀ p, 2 ≤ p → p ≤ totalPaginas n → (∀ a, a ≤ 3 → fetch a p = []) →
      ∃ ps, listar_tarefa fetch n fp = .error ps ∧ p ∈ ps) ∧
    (∀ l, listar_tarefa fetch n fp = .ok l →
      ∀ p, 2 ≤ p → p ≤ totalPaginas n → ∃ a, a ≤ 3 ∧ ¬ fetch a p = []) := by
  refine ⟨?_, ?_, ?_⟩
  · intro ps h
    rw [listar_tarefa] at h
    exact fetchAllCore_error_spec fetch n fp ps h
  · intro p hp2 hptp hfail
    rw [listar_tarefa]
    exact fetchAllCore_persistent_failure fetch n fp p hn hp2 hptp hfail
  · intro l hok p hp2 hptp
    by_contra hc
    push_neg at hc
    obtain ⟨ps, herr, _⟩ := fetchAllCore_persistent_failure fetch n fp p hn hp2 hptp
      (fun a ha => hc a ha)
    rw [listar_tarefa] at hok
    rw [hok] at herr
    exact absurd herr (by simp)

/-- Witness for C3: every upstream call fails; the fetch of 15 items ends
in an aggregated error containing page 2. -/
theorem full_fetch_fails_aggregated_witness :
    ∃ ps, listar_tarefa (fun _ _ => ([] : List Nat)) 15 [0, 1, 2, 3, 4, 5, 6, 7, 8, 9]
      = .error ps ∧ 2 ∈ ps := by
  exact (full_fetch_fails_aggregated (fun _ _ => ([] : List Nat)) 15
    [0, 1, 2, 3, 4, 5, 6, 7, 8, 9] (by norm_num)).2.1 2 (by norm_num)
    (by norm_num [totalPaginas, pageSize]) (fun a _ => rfl)

/-- C2 (violated by the code): in the `total_paginas ≤ 10` branch of
`listar_tarefa_parcial` (and `listar_documentos_parcial`) a failed page
fetch is silently folded in as `[]` — there is no pending/retry
bookkeeping on this path — so the function returns `parcial = false`
with a strict subset of the items and no exception.  Concretely:
`TotalItens = 15`, page 1 delivers 10 items, page 2 times out on all
three wrapper attempts (the helper degrades to `[]`); both parcial
fetchers return 10 of 15 items flagged complete, which the proxy route
then caches for 24h as a complete envelope. -/
theorem parcial_incomplete_flagged_complete :
    (listar_tarefa_parcial
        (fun _ => buscar_pagina_andamentos (fun _ => (ReqOutcome.timeout : ReqOutcome (List Nat))))
        15 [0, 1, 2, 3, 4, 5, 6, 7, 8, 9]).2.2 = false ∧
    (listar_tarefa_parcial
        (fun _ => buscar_pagina_andamentos (fun _ => (ReqOutcome.timeout : ReqOutcome (List Nat))))
        15 [0, 1, 2, 3, 4, 5, 6, 7, 8, 9]).1.length = 10 ∧
    (listar_tarefa_parcial
        (fun _ => buscar_pagina_andamentos (fun _ => (ReqOutcome.timeout : ReqOutcome (List Nat))))
        15 [0, 1, 2, 3, 4, 5, 6, 7, 8, 9]).2.1 = 15 ∧
    (listar_documentos_parcial
        (fun _ => buscar_pagina_documentos (fun _ => (ReqOutcome.timeout : ReqOutcome (List Nat))))
        15 [0, 1, 2, 3, 4, 5, 6, 7, 8, 9]).2.2 = false ∧
    (listar_documentos_parcial
        (fun _ => buscar_pagina_documentos (fun _ => (ReqOutcome.timeout : ReqOutcome (List Nat))))
        15 [0, 1, 2, 3, 4, 5, 6, 7, 8, 9]).1.length = 10 := by
  exact ⟨rfl, rfl, rfl, rfl, rfl⟩

/-- Counterexample to C4 as stated: for the same upstream state (page 2
failing persistently), `listar_tarefa_parcial` returns `parcial = false`
with only the 10 first-page items, while `listar_tarefa` returns no item
list at all — it fails with the aggregated error for page 2 — so the
parcial result is not identical to the full fetch's. -/
theorem parcial_diverges_from_full_on_failure :
    listar_tarefa_parcial (fun _ => ([] : List Nat)) 15 [0, 1, 2, 3, 4, 5, 6, 7, 8, 9]
      = ([0, 1, 2, 3, 4, 5, 6, 7, 8, 9], 15, false) ∧
    listar_tarefa (fun _ _ => ([] : List Nat)) 15 [0, 1, 2, 3, 4, 5, 6, 7, 8, 9]
      = .error [2] := by
  exact ⟨rfl, rfl⟩

/-- C4 (amended): when the discovery call reports `total_paginas ≤ 10`
and every page fetch succeeds (serves its slice of the upstream list),
`listar_tarefa_parcial` returns `parcial = false` and an item list
identical to the one `listar_tarefa` returns for the same upstream
state.  (Unconditionally the claim fails: on a page failure the parcial
path silently returns fewer items while the full fetch raises.) -/
theorem listar_tarefa_parcial_small_agrees [DecidableEq α] (L : List α)
    (f1 : Nat → List α) (f2 : Nat → Nat → List α)
    (htp : totalPaginas L.length ≤ 10)
    (h1 : ∀ p, 2 ≤ p → p ≤ totalPaginas L.length → f1 p = chunk L p)
    (h2 : ∀ p, 2 ≤ p → p ≤ totalPaginas L.length → f2 0 p = chunk L p) :
    listar_tarefa_parcial f1 L.length (chunk L 1) = (L, L.length, false) ∧
    listar_tarefa f2 L.length (chunk L 1) = .ok L := by
  refine ⟨listar_tarefa_parcial_all_ok L f1 htp h1, ?_⟩
  rw [listar_tarefa]
  by_cases hn : 10 < L.length
  · exact fetchAllCore_all_ok f2 L hn h2
  · push_neg at hn
    by_cases h0 : L.length = 0
    · have hL : L = [] := List.length_eq_zero.mp h0
      subst hL
      simp [fetchAllCore, chunk]
    · rw [fetchAllCore, if_neg h0,
        if_pos (show L.length ≤ pageSize by simpa [pageSize] using hn)]
      rw [chunk_one_of_le L hn]

/-- Witness for the amended C4: 15 items in two pages, all fetches
succeed; parcial and full agree item-for-item with `parcial = false`. -/
theorem listar_tarefa_parcial_small_agrees_witness :
    listar_tarefa_parcial (fun p => chunk (List.range 15) p) (List.range 15).length
      (chunk (List.range 15) 1) = (List.range 15, (List.range 15).length, false) ∧
    listar_tarefa (fun _ p => chunk (List.range 15) p) (List.range 15).length
      (chunk (List.range 15) 1) = .ok (List.range 15) := by
  exact listar_tarefa_parcial_small_agrees (List.range 15) _ _
    (by decide) (fun p _ _ => rfl) (fun p _ _ => rfl)

end SeiApi
